import Mathlib

/-!
Shallow embedding of the scraping/caching pipeline of net-empregos.py:
the cache (JobCache), the fetch orchestration (JobCrawler.fetch_latest_jobs),
the per-item parser (parse_job_item and its helpers), the search filter
(apply_filters) and the configuration loader (Config.load_config).
Wall-clock instants are integers (seconds); Python exceptions are modelled
with Except; persisted files are explicit state values threaded through.
-/

namespace NetEmp

/-- A parsed job posting: the five string fields the source stores under the
dictionary keys title, url, date, location and employer. -/
structure Job where
  title : String
  url : String
  date : String
  location : String
  employer : String
deriving DecidableEq, Repr

/-- Fixed site root used to absolutize relative links (self.base_url). -/
def base_url : String := "https://www.net-empregos.com"

/-- Boolean contiguous-substring test over the character lists, modelling the
Python membership test of needle in hay on strings. -/
def strContains (hay needle : String) : Bool :=
  (List.range (hay.data.length + 1)).any fun i => needle.data.isPrefixOf (hay.data.drop i)

/-! ### Parser input model

A JobItem records, for one div.job-item container, the outcome of each
BeautifulSoup query the parser performs on it: the h2 title tag, the two
labelled icons, and the list of li elements. Text fields hold the value
get_text with strip returns; an icon also carries the raw next text node. -/

/-- The a.oferta-link anchor inside the h2: stripped display text plus the
href attribute, where the empty string stands for a missing attribute
(the source reads it with a default of the empty string). -/
structure LinkTag where
  text : String
  href : String
deriving DecidableEq, Repr

/-- The h2 tag of a container: its stripped text and the optional anchor. -/
structure H2Tag where
  text : String
  link : Option LinkTag
deriving DecidableEq, Repr

/-- An icon tag found by class name: the first following text node as
find_next returns it (unstripped, none when absent), and the stripped text
of its parent tag (none when the tag has no parent). -/
structure IconTag where
  nextText : Option String
  parentText : Option String
deriving DecidableEq, Repr

/-- A li element: its optional style attribute and its stripped text. -/
structure Li where
  style : Option String
  text : String
deriving DecidableEq, Repr

/-- One job container with the results of the queries parse_job_item runs:
find h2, find i.flaticon-calendar, find i.flaticon-pin, find_all li. -/
structure JobItem where
  h2 : Option H2Tag
  calendarIcon : Option IconTag
  pinIcon : Option IconTag
  lis : List Li
deriving DecidableEq, Repr

/-- Fallback of extract_field_by_icon: the parent text when it is non-empty,
else the sentinel. -/
def parentFallback : Option String → String
  | some p => if p ≠ "" then p else "N/A"
  | none => "N/A"

/-- Translation of extract_field_by_icon: if the icon is absent the sentinel;
otherwise the stripped next text node when that node is truthy (non-empty),
else the parent text when truthy, else the sentinel. -/
def extract_field_by_icon : Option IconTag → String
  | none => "N/A"
  | some icon =>
    match icon.nextText with
    | some t => if t ≠ "" then t.trim else parentFallback icon.parentText
    | none => parentFallback icon.parentText

/-- A li whose style attribute exists and contains the bold marker, as the
style lambda in extract_employer tests. -/
def isBoldLi (li : Li) : Bool :=
  match li.style with
  | some s => strContains s "font-weight:bold"
  | none => false

/-- Translation of extract_employer: the first bold li if any, else the first
li whose stripped text has length greater than 2, else the sentinel. -/
def extract_employer (lis : List Li) : String :=
  match lis.find? isBoldLi with
  | some li => li.text
  | none =>
    match lis.find? (fun li => decide (li.text.length > 2)) with
    | some li => li.text
    | none => "N/A"

/-- Title and url extraction from the h2 tag: with an anchor, its text and the
absolutized href (sentinel when the href is empty); without an anchor, the h2
text and the url sentinel. -/
def title_url (h : H2Tag) : String × String :=
  match h.link with
  | some l => (l.text, if l.href ≠ "" then base_url ++ l.href else "N/A")
  | none => (h.text, "N/A")

/-- Translation of parse_job_item: a container without an h2 yields none; any
other container yields the record assembled from the independent field
extractors. -/
def parse_job_item (item : JobItem) : Option Job :=
  match item.h2 with
  | none => none
  | some h =>
    some { title := (title_url h).1
           url := (title_url h).2
           date := extract_field_by_icon item.calendarIcon
           location := extract_field_by_icon item.pinIcon
           employer := extract_employer item.lis }

/-! ### Cache model

The pickle file on disk is modelled by an optional Pickled value: none when
the file does not exist. Loading it can fail in the distinct ways the source
distinguishes by exception type. -/

/-- The timestamp slot of a loaded cache dictionary: absent covers a missing
key or a falsy value, badType a truthy value that is not a datetime (so that
subtracting it raises TypeError), time a datetime in integer seconds. -/
inductive TSField where
  | absent
  | badType
  | time (t : Int)
deriving DecidableEq, Repr

/-- Content of the persisted cache file: unpicklable means pickle.load raises
PickleError; nonDict means the loaded value has no get method, so calling it
raises AttributeError; dict carries the optional timestamp and jobs slots. -/
inductive Pickled where
  | unpicklable
  | nonDict
  | dict (timestamp : TSField) (jobs : Option (List Job))
deriving DecidableEq, Repr

/-- Persisted cache state: none when the file does not exist. -/
abbrev CacheFile := Option Pickled

/-- Python exceptions that escape the modelled functions. -/
inductive PyErr where
  | attributeError
  | typeError
deriving DecidableEq, Repr

/-- Translation of clear_cache: remove the file whatever it held. -/
def clear_cache (_s : CacheFile) : CacheFile := none

/-- Translation of get_cached_jobs at instant now with the configured
cache_duration: returns the optional hit together with the cache file state
after the call. PickleError and the TypeError from subtracting a non-datetime
timestamp are caught and self-heal by deleting the file; an AttributeError
from a pickled non-dictionary escapes (it is not in the caught tuple); a
missing or falsy timestamp falls through to the absent result without
deleting; a fresh timestamp serves the jobs slot with an empty-list default. -/
def get_cached_jobs (now dur : Int) : CacheFile → Except PyErr (Option (List Job) × CacheFile)
  | none => .ok (none, none)
  | some .unpicklable => .ok (none, clear_cache (some .unpicklable))
  | some .nonDict => .error .attributeError
  | some (.dict ts jobs) =>
    match ts with
    | .absent => .ok (none, some (.dict .absent jobs))
    | .badType => .ok (none, clear_cache (some (.dict .badType jobs)))
    | .time t =>
      if now - t < dur then .ok (some (jobs.getD []), some (.dict (.time t) jobs))
      else .ok (none, some (.dict (.time t) jobs))

/-- Translation of cache_jobs: overwrite the file with a fresh timestamped
dictionary; a failing disk write is caught and leaves the file unchanged. -/
def cache_jobs (now : Int) (jobs : List Job) (writeOk : Bool) (s : CacheFile) : CacheFile :=
  if writeOk then some (.dict (.time now) (some jobs)) else s

/-! ### Fetch orchestration model -/

/-- Outcome of session.get plus the adapter retry policy: raiseExc covers a
network error or exhausted retries on a forcelist status; response carries the
final status code and the job containers found in the body. -/
inductive NetResult where
  | raiseExc
  | response (status : Nat) (items : List JobItem)
deriving DecidableEq, Repr

/-- Externally visible steps of one fetch_latest_jobs call, in order. -/
inductive Event where
  | rateWait
  | cacheGet
  | netRequest
  | cachePut
deriving DecidableEq, Repr

/-- Environment of one fetch_latest_jobs call: the persisted cache file, the
current instant, the configured cache_duration, the network outcome and
whether the cache write would succeed. -/
structure FetchEnv where
  cacheFile : CacheFile
  now : Int
  cacheDuration : Int
  net : NetResult
  writeOk : Bool
deriving DecidableEq, Repr

/-- Result of one fetch_latest_jobs call: the returned list, the persisted
cache file afterwards, and the ordered trace of steps performed. -/
structure FetchResult where
  jobs : List Job
  cacheFile : CacheFile
  trace : List Event
deriving DecidableEq, Repr

/-- Whether raise_for_status raises: client and server error statuses. -/
def status_raises (s : Nat) : Bool := 400 ≤ s && s < 600

/-- Network half of fetch_latest_jobs, entered when the cache check produced
no truthy hit: a raised request exception or an error status degrades to the
empty list; zero containers degrade to the empty list without caching; else
the containers are parsed and the result is cached before being returned. -/
def fetch_from_network (env : FetchEnv) (c1 : CacheFile) : FetchResult :=
  match env.net with
  | .raiseExc => { jobs := [], cacheFile := c1, trace := [.rateWait, .cacheGet, .netRequest] }
  | .response status items =>
    if status_raises status then
      { jobs := [], cacheFile := c1, trace := [.rateWait, .cacheGet, .netRequest] }
    else if items.isEmpty then
      { jobs := [], cacheFile := c1, trace := [.rateWait, .cacheGet, .netRequest] }
    else
      let jobs := items.filterMap parse_job_item
      { jobs := jobs
        cacheFile := cache_jobs env.now jobs env.writeOk c1
        trace := [.rateWait, .cacheGet, .netRequest, .cachePut] }

/-- Translation of fetch_latest_jobs: rate-limiter wait, then the cache check;
an exception escaping the cache check is caught by the outer handler and
degrades to the empty list; a truthy (non-empty) hit is returned immediately;
a falsy result (no hit, or a hit equal to the empty list) falls through to
the network. -/
def fetch_latest_jobs (env : FetchEnv) : FetchResult :=
  match get_cached_jobs env.now env.cacheDuration env.cacheFile with
  | .error _ => { jobs := [], cacheFile := env.cacheFile, trace := [.rateWait, .cacheGet] }
  | .ok (some (j :: js), c1) => { jobs := j :: js, cacheFile := c1, trace := [.rateWait, .cacheGet] }
  | .ok (some [], c1) => fetch_from_network env c1
  | .ok (none, c1) => fetch_from_network env c1

/-- Whether the cache check of a fetch yields a truthy hit, the condition the
source tests with the statement if cached_jobs. -/
def usableHit (env : FetchEnv) : Bool :=
  match get_cached_jobs env.now env.cacheDuration env.cacheFile with
  | .ok (some (_ :: _), _) => true
  | _ => false

/-- Condition under which a fetch reaches the cache_jobs call: no truthy hit,
no escaped cache exception, a delivered response with a non-error status and
at least one job container. -/
def shouldCachePut (env : FetchEnv) : Bool :=
  match get_cached_jobs env.now env.cacheDuration env.cacheFile with
  | .error _ => false
  | .ok (some (_ :: _), _) => false
  | .ok _ =>
    match env.net with
    | .raiseExc => false
    | .response status items => !status_raises status && !items.isEmpty

/-! ### Search filter model -/

/-- Character-wise lowering of a string, modelling the Python lower method
(the embedding lowers with the ASCII character table). -/
def lower (s : String) : String := ⟨s.data.map Char.toLower⟩

/-- Match predicate of apply_filters: the lowered search term occurs in the
lowered title, location or employer field. -/
def matchesQuery (s : String) (j : Job) : Bool :=
  strContains (lower j.title) s || strContains (lower j.location) s ||
    strContains (lower j.employer) s

/-- Translation of apply_filters: lower the search box content; with a truthy
term keep the matching jobs, otherwise copy the whole list (a copy is the
identity on values). -/
def apply_filters (searchVar : String) (current_jobs : List Job) : List Job :=
  if lower searchVar ≠ "" then current_jobs.filter (matchesQuery (lower searchVar))
  else current_jobs

/-- Specification-side substring predicate: the needle occurs contiguously in
the hay. -/
def Substr (needle hay : String) : Prop :=
  ∃ l r, hay.data = l ++ needle.data ++ r

/-- Specification-side match predicate of the filter claim: the query is a
case-insensitive substring of the title, the location or the employer. -/
def matchesSpec (q : String) (j : Job) : Prop :=
  Substr (lower q) (lower j.title) ∨ Substr (lower q) (lower j.location) ∨
    Substr (lower q) (lower j.employer)

/-! ### Configuration model -/

/-- A JSON scalar stored in the configuration: the float default 1.0 of
request_delay is represented by the integer 1. -/
inductive CVal where
  | num (n : Int)
  | bool (b : Bool)
  | str (s : String)
deriving DecidableEq, Repr

/-- The default_config dictionary of the Config class. -/
def default_config : String → Option CVal := fun k =>
  if k = "refresh_interval" then some (.num 300)
  else if k = "max_jobs_display" then some (.num 50)
  else if k = "cache_duration" then some (.num 300)
  else if k = "request_delay" then some (.num 1)
  else if k = "timeout" then some (.num 10)
  else if k = "auto_refresh" then some (.bool true)
  else none

/-- Persisted configuration file: missing, whitespace-only, invalid JSON, a
JSON value that is not an object (so that dictionary unpacking raises
TypeError, which the source does not catch), or a JSON object. -/
inductive ConfigFile where
  | missing
  | emptyFile
  | invalidJson
  | jsonNonDict
  | jsonDict (m : String → Option CVal)

/-- Translation of load_config: a missing, empty or unparseable file yields
the defaults; an object is merged over the defaults with the loaded bindings
winning; a non-object JSON value raises. -/
def load_config : ConfigFile → Except PyErr (String → Option CVal)
  | .missing => .ok default_config
  | .emptyFile => .ok default_config
  | .invalidJson => .ok default_config
  | .jsonNonDict => .error .typeError
  | .jsonDict m => .ok fun k =>
      match m k with
      | some v => some v
      | none => default_config k

/-- Translation of the Config constructor: load the settings, then write the
merged settings back to the file; a failing write is caught and leaves the
file unchanged. -/
def config_init (f : ConfigFile) (writeOk : Bool) :
    Except PyErr ((String → Option CVal) × ConfigFile) :=
  match load_config f with
  | .error e => .error e
  | .ok s => .ok (s, if writeOk then ConfigFile.jsonDict s else f)

/-! ### Concrete sample values used by witnesses and counterexamples -/

/-- A sample record for concrete instantiations. -/
def jobA : Job :=
  { title := "Engineer", url := "N/A", date := "N/A", location := "Lisboa", employer := "ACME" }

/-- A configuration object holding one binding for a key outside the
defaults. -/
def cfgFoo : String → Option CVal := fun k => if k = "foo" then some (CVal.num 1) else none

/-- A container without an h2 tag: no recoverable title. -/
def itemNoTitle : JobItem := { h2 := none, calendarIcon := none, pinIcon := none, lis := [] }

/-- A container with a plain h2 and nothing else. -/
def itemPlain : JobItem :=
  { h2 := some { text := "Analyst", link := none }, calendarIcon := none, pinIcon := none,
    lis := [] }

/-- A li whose style marks it as bold. -/
def liBold : Li := { style := some "color:red;font-weight:bold", text := "ACME" }

/-- A li with trivial text. -/
def liShort : Li := { style := none, text := "ab" }

/-- A li with non-trivial text and no style. -/
def liLong : Li := { style := none, text := "TechCorp" }

/-- Environment with an empty cache and a failing network. -/
def envNet : FetchEnv :=
  { cacheFile := none, now := 0, cacheDuration := 300, net := .raiseExc, writeOk := true }

/-- Environment with a pickled non-dictionary in the cache file. -/
def envND : FetchEnv :=
  { cacheFile := some .nonDict, now := 0, cacheDuration := 300, net := .raiseExc,
    writeOk := true }

/-- Environment with an empty cache and a server-error response. -/
def env500 : FetchEnv :=
  { cacheFile := none, now := 0, cacheDuration := 300, net := .response 500 [],
    writeOk := true }

/-- Environment with an empty cache and a delivered response whose only
container has no title. -/
def envNoParse : FetchEnv :=
  { cacheFile := none, now := 0, cacheDuration := 300, net := .response 200 [itemNoTitle],
    writeOk := true }

/-- Environment with an empty cache and a not-modified response that still
carries one well-formed container. -/
def env304 : FetchEnv :=
  { cacheFile := none, now := 0, cacheDuration := 300, net := .response 304 [itemPlain],
    writeOk := true }

/-- Environment with a fresh non-empty cache entry. -/
def envHit : FetchEnv :=
  { cacheFile := some (.dict (.time 0) (some [jobA])), now := 0, cacheDuration := 300,
    net := .raiseExc, writeOk := true }

/-- Environment with a fresh cache entry holding the empty record list. -/
def envEmptyHit : FetchEnv :=
  { cacheFile := some (.dict (.time 0) (some [])), now := 0, cacheDuration := 300,
    net := .response 200 [], writeOk := true }

/-- Environment with an unpicklable cache entry and a failing network. -/
def envCorruptNet : FetchEnv :=
  { cacheFile := some .unpicklable, now := 0, cacheDuration := 300, net := .raiseExc,
    writeOk := true }

/-! ### Theorems -/

/-- Claim C2, amended to positive cache durations: for every positive
configured cache_duration, a get performed at the instant of a successful put
of some records returns exactly those records, content and order included, and
a get performed once cache_duration has elapsed returns the distinguished
absent value none, not an empty list. -/
theorem cache_put_get_roundtrip (dur t now2 : Int) (records : List Job) (c : CacheFile)
    (hdur : 0 < dur) (hstale : dur ≤ now2 - t) :
    get_cached_jobs t dur (cache_jobs t records true c)
        = Except.ok (some records, cache_jobs t records true c)
    ∧ get_cached_jobs now2 dur (cache_jobs t records true c)
        = Except.ok (none, cache_jobs t records true c) := by
  have h1 : t - t < dur := by omega
  have h2 : ¬ (now2 - t < dur) := by omega
  constructor
  · simp [cache_jobs, get_cached_jobs, h1, hdur]
  · simp [cache_jobs, get_cached_jobs, h2]

/-- Witness for the cache round-trip theorem at duration 1, put at instant 0,
stale get at instant 1. -/
theorem cache_put_get_roundtrip_witness :
    get_cached_jobs 0 1 (cache_jobs 0 [] true none)
        = Except.ok (some [], cache_jobs 0 [] true none)
    ∧ get_cached_jobs 1 1 (cache_jobs 0 [] true none)
        = Except.ok (none, cache_jobs 0 [] true none) :=
  cache_put_get_roundtrip 1 0 1 [] none (by decide) (by decide)

/-- Claim C2 counterexample: with the configured cache_duration 0 a get at
the very instant of the put already returns the absent value, not the stored
records, because zero elapsed time is not strictly below the duration. -/
theorem cache_put_get_zero_duration_cx :
    get_cached_jobs 0 0 (cache_jobs 0 [jobA] true none)
        = Except.ok (none, cache_jobs 0 [jobA] true none)
    ∧ (none : Option (List Job)) ≠ some [jobA] := by
  exact ⟨rfl, by simp⟩

/-- Claim C4, amended: an unpicklable entry, and a dictionary entry whose
timestamp is a truthy non-datetime value, are self-healed by get: treated as
absent, deleted, and no error escapes; a dictionary without a truthy
timestamp is treated as absent but left on disk. A pickled value that is not
a dictionary instead raises, see the counterexample. -/
theorem cache_corruption_selfheal (now dur : Int) (jobs : Option (List Job)) :
    get_cached_jobs now dur (some Pickled.unpicklable) = Except.ok (none, none)
    ∧ get_cached_jobs now dur (some (Pickled.dict TSField.badType jobs)) = Except.ok (none, none)
    ∧ get_cached_jobs now dur (some (Pickled.dict TSField.absent jobs))
        = Except.ok (none, some (Pickled.dict TSField.absent jobs)) :=
  ⟨rfl, rfl, rfl⟩

/-- Claim C4 counterexample: a persisted entry whose pickled value is not a
dictionary makes get raise AttributeError to its caller, because that
exception type is outside the caught tuple, and the corrupt entry is not
deleted. -/
theorem cache_nondict_raises_cx :
    get_cached_jobs 0 300 (some Pickled.nonDict) = Except.error PyErr.attributeError := rfl

/-- Claim C9, amended: for a file that parses to a JSON object, every key
missing from it takes its default value and every key present in it, known or
unknown, is retained with its loaded value; a missing, empty or unparseable
file yields the defaults; and the merged settings are re-persisted to the
file immediately after loading. -/
theorem config_load_defaults_and_persist :
    (∀ m k, m k = none →
      ∃ s, load_config (ConfigFile.jsonDict m) = Except.ok s ∧ s k = default_config k) ∧
    (∀ m k v, m k = some v →
      ∃ s, load_config (ConfigFile.jsonDict m) = Except.ok s ∧ s k = some v) ∧
    (load_config ConfigFile.missing = Except.ok default_config
      ∧ load_config ConfigFile.emptyFile = Except.ok default_config
      ∧ load_config ConfigFile.invalidJson = Except.ok default_config) ∧
    (∀ f s, load_config f = Except.ok s →
      config_init f true = Except.ok (s, ConfigFile.jsonDict s)) := by
  refine ⟨?_, ?_, ⟨rfl, rfl, rfl⟩, ?_⟩
  · intro m k hk
    exact ⟨_, rfl, by simp [hk]⟩
  · intro m k v hk
    exact ⟨_, rfl, by simp [hk]⟩
  · intro f s h
    simp [config_init, h]

/-- Witness for the configuration theorem: a file holding only the binding of
the unknown key foo leaves timeout at its default and retains foo, and a
missing file is re-persisted with the defaults. -/
theorem config_load_defaults_and_persist_witness :
    (load_config (ConfigFile.jsonDict cfgFoo)).map (fun s => s "timeout")
        = Except.ok (default_config "timeout")
    ∧ (load_config (ConfigFile.jsonDict cfgFoo)).map (fun s => s "foo")
        = Except.ok (some (CVal.num 1))
    ∧ config_init ConfigFile.missing true
        = Except.ok (default_config, ConfigFile.jsonDict default_config) := by
  refine ⟨?_, ?_, ?_⟩
  · obtain ⟨s, hs, hk⟩ :=
      config_load_defaults_and_persist.1 cfgFoo "timeout" rfl
    rw [hs, Except.map, hk]
  · obtain ⟨s, hs, hk⟩ :=
      config_load_defaults_and_persist.2.1 cfgFoo "foo" (CVal.num 1) rfl
    rw [hs, Except.map, hk]
  · exact config_load_defaults_and_persist.2.2.2 ConfigFile.missing default_config
      config_load_defaults_and_persist.2.2.1.1

/-- Claim C9 counterexample: the unknown key foo present in the loaded file is
not ignored; the merged settings bind it to its loaded value although the
defaults do not know the key. -/
theorem config_unknown_key_retained_cx :
    (load_config (ConfigFile.jsonDict cfgFoo)).map (fun s => s "foo")
        = Except.ok (some (CVal.num 1))
    ∧ default_config "foo" = none := ⟨rfl, rfl⟩

/-- State after a successful cache lookup: the file is unchanged or deleted. -/
theorem get_cached_jobs_state_or_none (now dur : Int) (c : CacheFile) (h : Option (List Job))
    (c1 : CacheFile) (he : get_cached_jobs now dur c = Except.ok (h, c1)) :
    c1 = c ∨ c1 = none := by
  match c with
  | none =>
    simp [get_cached_jobs] at he
    exact Or.inr he.2.symm
  | some Pickled.unpicklable =>
    simp [get_cached_jobs, clear_cache] at he
    exact Or.inr he.2.symm
  | some Pickled.nonDict =>
    simp [get_cached_jobs] at he
  | some (Pickled.dict TSField.absent jobs) =>
    simp [get_cached_jobs] at he
    exact Or.inl he.2.symm
  | some (Pickled.dict TSField.badType jobs) =>
    simp [get_cached_jobs, clear_cache] at he
    exact Or.inr he.2.symm
  | some (Pickled.dict (TSField.time t) jobs) =>
    simp only [get_cached_jobs] at he
    split at he <;> (simp only [Except.ok.injEq, Prod.mk.injEq] at he; exact Or.inl he.2.symm)

/-- Fetch behaviour when the cache lookup raises: the outer handler returns
the empty list with the file untouched. -/
theorem fetch_eq_of_get_error (env : FetchEnv) (e : PyErr)
    (hg : get_cached_jobs env.now env.cacheDuration env.cacheFile = Except.error e) :
    fetch_latest_jobs env
      = { jobs := [], cacheFile := env.cacheFile, trace := [.rateWait, .cacheGet] } := by
  unfold fetch_latest_jobs
  rw [hg]

/-- Fetch behaviour on a truthy cache hit: the hit is returned as is. -/
theorem fetch_eq_of_get_hit (env : FetchEnv) (j : Job) (js : List Job) (c1 : CacheFile)
    (hg : get_cached_jobs env.now env.cacheDuration env.cacheFile
        = Except.ok (some (j :: js), c1)) :
    fetch_latest_jobs env
      = { jobs := j :: js, cacheFile := c1, trace := [.rateWait, .cacheGet] } := by
  unfold fetch_latest_jobs
  rw [hg]

/-- Fetch behaviour on an absent cache: control falls to the network. -/
theorem fetch_eq_of_get_none (env : FetchEnv) (c1 : CacheFile)
    (hg : get_cached_jobs env.now env.cacheDuration env.cacheFile = Except.ok (none, c1)) :
    fetch_latest_jobs env = fetch_from_network env c1 := by
  unfold fetch_latest_jobs
  rw [hg]

/-- Fetch behaviour on a cache hit holding the empty list: the hit is falsy,
so control falls to the network. -/
theorem fetch_eq_of_get_emptyhit (env : FetchEnv) (c1 : CacheFile)
    (hg : get_cached_jobs env.now env.cacheDuration env.cacheFile = Except.ok (some [], c1)) :
    fetch_latest_jobs env = fetch_from_network env c1 := by
  unfold fetch_latest_jobs
  rw [hg]

/-- A truthy cache hit makes the usableHit test positive. -/
theorem usableHit_true_of (env : FetchEnv) (j : Job) (js : List Job) (c1 : CacheFile)
    (hg : get_cached_jobs env.now env.cacheDuration env.cacheFile
        = Except.ok (some (j :: js), c1)) :
    usableHit env = true := by
  unfold usableHit
  rw [hg]

/-- The network half always records the request in its trace. -/
theorem netRequest_mem_fetch_from_network (env : FetchEnv) (c1 : CacheFile) :
    Event.netRequest ∈ (fetch_from_network env c1).trace := by
  unfold fetch_from_network
  cases env.net with
  | raiseExc => simp
  | response s items =>
    dsimp only
    split
    · simp
    · split
      · simp
      · simp

/-- The network half returns the empty list when the request raises. -/
theorem fetch_from_network_jobs_raise (env : FetchEnv) (c1 : CacheFile)
    (hn : env.net = NetResult.raiseExc) : (fetch_from_network env c1).jobs = [] := by
  unfold fetch_from_network
  rw [hn]

/-- The network half returns the empty list on an error status. -/
theorem fetch_from_network_jobs_status (env : FetchEnv) (c1 : CacheFile) (s : Nat)
    (items : List JobItem) (hn : env.net = NetResult.response s items)
    (hs : status_raises s = true) : (fetch_from_network env c1).jobs = [] := by
  unfold fetch_from_network
  rw [hn]
  simp [hs]

/-- The network half returns the empty list when every container fails to
parse, whatever the status. -/
theorem fetch_from_network_jobs_noparse (env : FetchEnv) (c1 : CacheFile) (s : Nat)
    (items : List JobItem) (hn : env.net = NetResult.response s items)
    (hp : ∀ it ∈ items, parse_job_item it = none) :
    (fetch_from_network env c1).jobs = [] := by
  unfold fetch_from_network
  rw [hn]
  dsimp only
  split
  · rfl
  · split
    · rfl
    · simpa [List.filterMap_eq_nil_iff] using hp

/-- Claim C1, amended to the statuses the source treats as errors: a fetch
with no truthy cache hit degrades to the empty list, raising nothing, on a
raised request exception (covering network errors and exhausted retries), on
a 4xx or 5xx status, and when no container parses; a cache lookup error is
swallowed by the outer handler and also yields the empty list. A non-2xx
status outside 400 to 599 is not an error for the source, see the
counterexample. -/
theorem fetch_failure_returns_empty (env : FetchEnv) :
    (env.cacheFile = some Pickled.nonDict → (fetch_latest_jobs env).jobs = [])
    ∧ (usableHit env = false → env.net = NetResult.raiseExc → (fetch_latest_jobs env).jobs = [])
    ∧ (∀ s items, usableHit env = false → env.net = NetResult.response s items →
        status_raises s = true → (fetch_latest_jobs env).jobs = [])
    ∧ (∀ s items, usableHit env = false → env.net = NetResult.response s items →
        (∀ it ∈ items, parse_job_item it = none) → (fetch_latest_jobs env).jobs = []) := by
  have main : usableHit env = false →
      (fetch_latest_jobs env).jobs = [] ∨
        ∃ c1, fetch_latest_jobs env = fetch_from_network env c1 := by
    intro hu
    cases hg : get_cached_jobs env.now env.cacheDuration env.cacheFile with
    | error e =>
      rw [fetch_eq_of_get_error env e hg]
      exact Or.inl rfl
    | ok pr =>
      obtain ⟨hit, c1⟩ := pr
      cases hit with
      | none => exact Or.inr ⟨c1, fetch_eq_of_get_none env c1 hg⟩
      | some l =>
        cases l with
        | nil => exact Or.inr ⟨c1, fetch_eq_of_get_emptyhit env c1 hg⟩
        | cons j js =>
          rw [usableHit_true_of env j js c1 hg] at hu
          exact absurd hu (by simp)
  refine ⟨?_, ?_, ?_, ?_⟩
  · intro hc
    have hg : get_cached_jobs env.now env.cacheDuration env.cacheFile
        = Except.error PyErr.attributeError := by rw [hc]; rfl
    rw [fetch_eq_of_get_error env _ hg]
  · intro hu hn
    rcases main hu with h | ⟨c1, h⟩
    · exact h
    · rw [h]; exact fetch_from_network_jobs_raise env c1 hn
  · intro s items hu hn hs
    rcases main hu with h | ⟨c1, h⟩
    · exact h
    · rw [h]; exact fetch_from_network_jobs_status env c1 s items hn hs
  · intro s items hu hn hp
    rcases main hu with h | ⟨c1, h⟩
    · exact h
    · rw [h]; exact fetch_from_network_jobs_noparse env c1 s items hn hp

/-- Witness for the fetch failure theorem: a corrupt cache, a raised request
exception, a 500 status and an unparseable page each yield the empty list. -/
theorem fetch_failure_returns_empty_witness :
    (fetch_latest_jobs envND).jobs = []
    ∧ (fetch_latest_jobs envNet).jobs = []
    ∧ (fetch_latest_jobs env500).jobs = []
    ∧ (fetch_latest_jobs envNoParse).jobs = [] := by
  refine ⟨(fetch_failure_returns_empty envND).1 rfl,
    (fetch_failure_returns_empty envNet).2.1 (by decide) rfl,
    (fetch_failure_returns_empty env500).2.2.1 500 [] (by decide) rfl (by decide),
    (fetch_failure_returns_empty envNoParse).2.2.2 200 [itemNoTitle] (by decide) rfl ?_⟩
  intro it hit
  simp only [List.mem_singleton] at hit
  rw [hit]
  rfl

/-- Claim C1 counterexample: a delivered 304 response carrying one container
is not treated as a failure although 304 is not a 2xx status; the fetch
returns the parsed record, not the empty list. -/
theorem fetch_304_parses_cx :
    (fetch_latest_jobs env304).jobs
      = [{ title := "Analyst", url := "N/A", date := "N/A", location := "N/A",
           employer := "N/A" }]
    ∧ (fetch_latest_jobs env304).jobs ≠ [] := by
  exact ⟨rfl, by decide⟩

/-- Claim C3, amended to truthy hits: the rate limiter runs before the cache
is consulted on every call, and whenever the cache reports a present entry
with a non-empty record sequence the fetch returns exactly that sequence with
no network request; a present entry holding the empty sequence is falsy for
the source and control proceeds to the network instead. -/
theorem fetch_rate_limit_and_cache_hit (env : FetchEnv) :
    (fetch_latest_jobs env).trace.take 2 = [Event.rateWait, Event.cacheGet]
    ∧ (∀ j js c1,
        get_cached_jobs env.now env.cacheDuration env.cacheFile
            = Except.ok (some (j :: js), c1) →
        (fetch_latest_jobs env).jobs = j :: js
          ∧ Event.netRequest ∉ (fetch_latest_jobs env).trace)
    ∧ (∀ c1,
        get_cached_jobs env.now env.cacheDuration env.cacheFile = Except.ok (some [], c1) →
        Event.netRequest ∈ (fetch_latest_jobs env).trace) := by
  refine ⟨?_, ?_, ?_⟩
  · cases hg : get_cached_jobs env.now env.cacheDuration env.cacheFile with
    | error e =>
      rw [fetch_eq_of_get_error env e hg]
      rfl
    | ok pr =>
      obtain ⟨hit, c1⟩ := pr
      cases hit with
      | none =>
        rw [fetch_eq_of_get_none env c1 hg]
        unfold fetch_from_network
        cases env.net with
        | raiseExc => rfl
        | response s items =>
          dsimp only
          split
          · rfl
          · split
            · rfl
            · rfl
      | some l =>
        cases l with
        | nil =>
          rw [fetch_eq_of_get_emptyhit env c1 hg]
          unfold fetch_from_network
          cases env.net with
          | raiseExc => rfl
          | response s items =>
            dsimp only
            split
            · rfl
            · split
              · rfl
              · rfl
        | cons j js =>
          rw [fetch_eq_of_get_hit env j js c1 hg]
          rfl
  · intro j js c1 hg
    rw [fetch_eq_of_get_hit env j js c1 hg]
    exact ⟨rfl, by simp⟩
  · intro c1 hg
    rw [fetch_eq_of_get_emptyhit env c1 hg]
    exact netRequest_mem_fetch_from_network env c1

/-- Witness for the hit theorem: a fresh non-empty cached entry is served
without touching the network. -/
theorem fetch_rate_limit_and_cache_hit_witness :
    (fetch_latest_jobs envHit).jobs = [jobA]
    ∧ Event.netRequest ∉ (fetch_latest_jobs envHit).trace
    ∧ (fetch_latest_jobs envHit).trace.take 2 = [Event.rateWait, Event.cacheGet] := by
  obtain ⟨h1, h2⟩ := (fetch_rate_limit_and_cache_hit envHit).2.1 jobA []
    (some (Pickled.dict (TSField.time 0) (some [jobA]))) rfl
  exact ⟨h1, h2, (fetch_rate_limit_and_cache_hit envHit).1⟩

/-- Claim C3 counterexample: with a present fresh cache entry holding the
empty record sequence, the fetch does not return the cached sequence; it
contacts the network, because the empty list is falsy in the hit test. -/
theorem fetch_empty_hit_contacts_network_cx :
    get_cached_jobs envEmptyHit.now envEmptyHit.cacheDuration envEmptyHit.cacheFile
        = Except.ok (some [], envEmptyHit.cacheFile)
    ∧ Event.netRequest ∈ (fetch_latest_jobs envEmptyHit).trace := by
  exact ⟨rfl, by decide⟩

/-- Claim C10, amended for self-healing: the cache write call happens exactly
when the cache lookup produced no truthy hit and no error, the response was
delivered with a non-error status, and the document held at least one
container; when no write call happens the persisted cache state is either
untouched or deleted by the corruption self-healing of the lookup. -/
theorem fetch_cache_put_iff (env : FetchEnv) :
    (Event.cachePut ∈ (fetch_latest_jobs env).trace ↔ shouldCachePut env = true)
    ∧ (Event.cachePut ∉ (fetch_latest_jobs env).trace →
        (fetch_latest_jobs env).cacheFile = env.cacheFile
          ∨ (fetch_latest_jobs env).cacheFile = none) := by
  cases hg : get_cached_jobs env.now env.cacheDuration env.cacheFile with
  | error e =>
    rw [fetch_eq_of_get_error env e hg]
    unfold shouldCachePut
    rw [hg]
    exact ⟨by simp, fun _ => Or.inl rfl⟩
  | ok pr =>
    obtain ⟨hit, c1⟩ := pr
    have hstate : c1 = env.cacheFile ∨ c1 = none :=
      get_cached_jobs_state_or_none env.now env.cacheDuration env.cacheFile hit c1 hg
    cases hit with
    | some l =>
      cases l with
      | cons j js =>
        rw [fetch_eq_of_get_hit env j js c1 hg]
        unfold shouldCachePut
        rw [hg]
        exact ⟨by simp, fun _ => hstate⟩
      | nil =>
        rw [fetch_eq_of_get_emptyhit env c1 hg]
        unfold shouldCachePut
        rw [hg]
        unfold fetch_from_network
        cases env.net with
        | raiseExc => exact ⟨by simp, fun _ => hstate⟩
        | response s items =>
          dsimp only
          by_cases hs : status_raises s = true
          · rw [if_pos hs]
            simp only [hs, Bool.not_true, Bool.false_and]
            exact ⟨by simp, fun _ => hstate⟩
          · rw [if_neg hs]
            rw [Bool.not_eq_true] at hs
            by_cases he : items.isEmpty = true
            · rw [if_pos he]
              simp only [hs, he, Bool.not_false, Bool.true_and, Bool.not_true]
              exact ⟨by simp, fun _ => hstate⟩
            · rw [if_neg he]
              rw [Bool.not_eq_true] at he
              simp only [hs, he, Bool.not_false, Bool.true_and]
              refine ⟨by simp, fun hmem => ?_⟩
              exact absurd (by simp) hmem
    | none =>
      rw [fetch_eq_of_get_none env c1 hg]
      unfold shouldCachePut
      rw [hg]
      unfold fetch_from_network
      cases env.net with
      | raiseExc => exact ⟨by simp, fun _ => hstate⟩
      | response s items =>
        dsimp only
        by_cases hs : status_raises s = true
        · rw [if_pos hs]
          simp only [hs, Bool.not_true, Bool.false_and]
          exact ⟨by simp, fun _ => hstate⟩
        · rw [if_neg hs]
          rw [Bool.not_eq_true] at hs
          by_cases he : items.isEmpty = true
          · rw [if_pos he]
            simp only [hs, he, Bool.not_false, Bool.true_and, Bool.not_true]
            exact ⟨by simp, fun _ => hstate⟩
          · rw [if_neg he]
            rw [Bool.not_eq_true] at he
            simp only [hs, he, Bool.not_false, Bool.true_and]
            refine ⟨by simp, fun hmem => ?_⟩
            exact absurd (by simp) hmem

/-- Witness for the cache write theorem at a failing network: no write call
and an untouched cache file. -/
theorem fetch_cache_put_iff_witness :
    (Event.cachePut ∈ (fetch_latest_jobs envNet).trace ↔ shouldCachePut envNet = true)
    ∧ ((fetch_latest_jobs envNet).cacheFile = envNet.cacheFile
        ∨ (fetch_latest_jobs envNet).cacheFile = none) :=
  ⟨(fetch_cache_put_iff envNet).1, (fetch_cache_put_iff envNet).2 (by decide)⟩

/-- Claim C10 counterexample: with an unpicklable cache entry and a failing
network the fetch returns the empty list without any write call, yet the
persisted cache state changes, because the lookup deleted the corrupt file. -/
theorem fetch_failure_deletes_corrupt_cache_cx :
    (fetch_latest_jobs envCorruptNet).jobs = []
    ∧ (fetch_latest_jobs envCorruptNet).cacheFile ≠ envCorruptNet.cacheFile := by
  exact ⟨rfl, by decide⟩

/-- A find? call returns the element at the first index satisfying the
predicate. -/
theorem find?_first {α : Type _} (p : α → Bool) (l : List α) :
    ∀ (n : Nat) (h : n < l.length), p (l.get ⟨n, h⟩) = true →
      (∀ a ∈ l.take n, p a = false) → l.find? p = some (l.get ⟨n, h⟩) := by
  induction l with
  | nil =>
    intro n h
    exact absurd h (by simp)
  | cons a t ih =>
    intro n h hp hmin
    cases n with
    | zero =>
      exact List.find?_cons_of_pos t hp
    | succ n =>
      have ha : p a = false := hmin a (by simp)
      rw [List.find?_cons_of_neg t (by simp [ha])]
      exact ih n (by simpa using h) hp (fun x hx => hmin x (by simp [hx]))

/-- Claim C5: a container without a recoverable title is dropped entirely;
any other container yields a record; each of the date, location and employer
fields degrades independently to the sentinel when its source element is
missing; changing the date source of a container alters none of its other
fields; and a container's parse outcome never affects sibling containers. -/
theorem parse_job_item_isolation (item : JobItem) :
    (item.h2 = none → parse_job_item item = none)
    ∧ (∀ h, item.h2 = some h →
        ∃ j, parse_job_item item = some j
          ∧ (item.calendarIcon = none → j.date = "N/A")
          ∧ (item.pinIcon = none → j.location = "N/A")
          ∧ (item.lis = [] → j.employer = "N/A")
          ∧ (∀ c, ∃ j2, parse_job_item { item with calendarIcon := c } = some j2
                ∧ j2.title = j.title ∧ j2.url = j.url ∧ j2.location = j.location
                ∧ j2.employer = j.employer))
    ∧ (∀ pre post,
        (pre ++ item :: post).filterMap parse_job_item
          = pre.filterMap parse_job_item ++ (parse_job_item item).toList
            ++ post.filterMap parse_job_item) := by
  refine ⟨?_, ?_, ?_⟩
  · intro hn
    unfold parse_job_item
    rw [hn]
  · intro h hh
    refine ⟨{ title := (title_url h).1, url := (title_url h).2,
              date := extract_field_by_icon item.calendarIcon,
              location := extract_field_by_icon item.pinIcon,
              employer := extract_employer item.lis }, ?_, ?_, ?_, ?_, ?_⟩
    · unfold parse_job_item
      rw [hh]
    · intro hc
      show extract_field_by_icon item.calendarIcon = "N/A"
      rw [hc]
      rfl
    · intro hp
      show extract_field_by_icon item.pinIcon = "N/A"
      rw [hp]
      rfl
    · intro hl
      show extract_employer item.lis = "N/A"
      rw [hl]
      rfl
    · intro c
      refine ⟨{ title := (title_url h).1, url := (title_url h).2,
                date := extract_field_by_icon c,
                location := extract_field_by_icon item.pinIcon,
                employer := extract_employer item.lis }, ?_, rfl, rfl, rfl, rfl⟩
      have hh2 : ({ item with calendarIcon := c } : JobItem).h2 = some h := hh
      unfold parse_job_item
      rw [hh2]
  · intro pre post
    rw [List.filterMap_append]
    cases hp : parse_job_item item with
    | none => simp [hp]
    | some j => simp [hp]

/-- Witness for the parse isolation theorem: a container without an h2 is
dropped; a bare container with only an h2 parses to a record whose date is
the sentinel. -/
theorem parse_job_item_isolation_witness :
    parse_job_item itemNoTitle = none
    ∧ ∃ j, parse_job_item itemPlain = some j ∧ j.date = "N/A" := by
  refine ⟨(parse_job_item_isolation itemNoTitle).1 rfl, ?_⟩
  obtain ⟨j, hj, hdate, hloc, hemp, hind⟩ :=
    (parse_job_item_isolation itemPlain).2.1 { text := "Analyst", link := none } rfl
  exact ⟨j, hj, hdate rfl⟩

/-- Claim C6: employer extraction returns the text of a bold list element if
one exists; otherwise the text of the first list element whose text is longer
than 2 characters; otherwise the sentinel. -/
theorem extract_employer_spec (lis : List Li) :
    ((∃ li ∈ lis, isBoldLi li = true) →
        ∃ li ∈ lis, isBoldLi li = true ∧ extract_employer lis = li.text)
    ∧ ((∀ li ∈ lis, isBoldLi li = false) → ∀ n (h : n < lis.length),
        (lis.get ⟨n, h⟩).text.length > 2 →
        (∀ li ∈ lis.take n, li.text.length ≤ 2) →
        extract_employer lis = (lis.get ⟨n, h⟩).text)
    ∧ ((∀ li ∈ lis, isBoldLi li = false ∧ li.text.length ≤ 2) →
        extract_employer lis = "N/A") := by
  refine ⟨?_, ?_, ?_⟩
  · rintro ⟨li, hmem, hbold⟩
    have hsome : (lis.find? isBoldLi).isSome := by
      rw [List.find?_isSome]
      exact ⟨li, hmem, hbold⟩
    obtain ⟨li2, hfind⟩ := Option.isSome_iff_exists.mp hsome
    refine ⟨li2, List.mem_of_find?_eq_some hfind, List.find?_some hfind, ?_⟩
    unfold extract_employer
    rw [hfind]
  · intro hnone n h hl hpre
    have hfn : lis.find? isBoldLi = none :=
      List.find?_eq_none.mpr (fun x hx => by simp [hnone x hx])
    have hfind := find?_first (fun li => decide (li.text.length > 2)) lis n h
      (by simpa using hl) (fun a ha => by simpa using hpre a ha)
    unfold extract_employer
    rw [hfn, hfind]
  · intro hall
    have hfn : lis.find? isBoldLi = none :=
      List.find?_eq_none.mpr (fun x hx => by simp [(hall x hx).1])
    have hfn2 : lis.find? (fun li => decide (li.text.length > 2)) = none :=
      List.find?_eq_none.mpr (fun x hx => by simpa using (hall x hx).2)
    unfold extract_employer
    rw [hfn, hfn2]

/-- Witness for the employer extraction theorem on concrete lists: a bold
element wins, then the first non-trivial text, then the sentinel. -/
theorem extract_employer_spec_witness :
    extract_employer [liShort, liBold] = "ACME"
    ∧ extract_employer [liShort, liLong] = "TechCorp"
    ∧ extract_employer [liShort] = "N/A" := by
  refine ⟨?_, ?_, ?_⟩
  · obtain ⟨li, hmem, hbold, heq⟩ := (extract_employer_spec [liShort, liBold]).1
      ⟨liBold, by simp, by decide⟩
    simp only [List.mem_cons, List.not_mem_nil, or_false] at hmem
    rcases hmem with h | h
    · rw [h] at hbold
      exact absurd hbold (by decide)
    · rw [heq, h]
      rfl
  · have hres := (extract_employer_spec [liShort, liLong]).2.1 (by decide) 1 (by decide)
      (by decide) (by decide)
    exact hres.trans rfl
  · exact (extract_employer_spec [liShort]).2.2 (by decide)

/-- The boolean substring test holds exactly when the needle occurs
contiguously inside the hay. -/
theorem strContains_iff (hay needle : String) :
    strContains hay needle = true ↔ ∃ l r, hay.data = l ++ needle.data ++ r := by
  unfold strContains
  rw [List.any_eq_true]
  constructor
  · rintro ⟨i, hi, hpre⟩
    rw [List.isPrefixOf_iff_prefix] at hpre
    obtain ⟨t, ht⟩ := hpre
    exact ⟨hay.data.take i, t, by rw [List.append_assoc, ht, List.take_append_drop]⟩
  · rintro ⟨l, r, hsplit⟩
    refine ⟨l.length, ?_, ?_⟩
    · rw [List.mem_range]
      have hlen : hay.data.length = l.length + needle.data.length + r.length := by
        rw [hsplit, List.length_append, List.length_append]
      omega
    · rw [List.isPrefixOf_iff_prefix]
      refine ⟨r, ?_⟩
      rw [hsplit, List.append_assoc, List.drop_left]

/-- Claim C7: a record passes the filter exactly when the query is a
case-insensitive substring of its title, its location or its employer; an
empty query returns the whole input list in its original order. -/
theorem apply_filters_spec (q : String) (jobs : List Job) :
    (∀ j, j ∈ apply_filters q jobs ↔ j ∈ jobs ∧ matchesSpec q j)
    ∧ (q = "" → apply_filters q jobs = jobs) := by
  have hm : ∀ j, matchesQuery (lower q) j = true ↔ matchesSpec q j := by
    intro j
    unfold matchesQuery matchesSpec Substr
    simp only [Bool.or_eq_true, strContains_iff]
    exact or_assoc
  constructor
  · intro j
    unfold apply_filters
    by_cases hq : lower q = ""
    · rw [if_neg (by simp [hq])]
      constructor
      · intro hmem
        refine ⟨hmem, Or.inl ⟨[], (lower j.title).data, ?_⟩⟩
        rw [hq]
        rfl
      · exact fun hj => hj.1
    · rw [if_pos hq]
      rw [List.mem_filter, hm j]
  · intro hq
    have h0 : lower q = "" := by rw [hq]; rfl
    unfold apply_filters
    rw [if_neg (by simp [h0])]

/-- Witness for the filter theorem at the empty query on a one-record list. -/
theorem apply_filters_spec_witness :
    apply_filters "" [jobA] = [jobA]
    ∧ (jobA ∈ apply_filters "" [jobA] ↔ jobA ∈ [jobA] ∧ matchesSpec "" jobA) :=
  ⟨(apply_filters_spec "" [jobA]).2 rfl, (apply_filters_spec "" [jobA]).1 jobA⟩

/-- Claim C8: filtering with a fixed query is idempotent. -/
theorem apply_filters_idempotent (q : String) (jobs : List Job) :
    apply_filters q (apply_filters q jobs) = apply_filters q jobs := by
  unfold apply_filters
  by_cases hq : lower q ≠ ""
  · rw [if_pos hq, if_pos hq, List.filter_filter]
    simp [Bool.and_self]
  · rw [if_neg hq, if_neg hq]

end NetEmp
